import Mathlib

/-!
Shallow embedding of the search-query layer of the document-indexing
application (files `src/elasticsearch_utils.py`, `src/spark_utils.py`).
Python dictionaries are modelled as insertion-ordered association lists
over a JSON-like value type; dictionary assignment `d[k] = v` replaces
in place or appends at the end, exactly as CPython does.
-/

/-- JSON-like values: the payloads exchanged with the search engine. -/
inductive JsonV where
  | null : JsonV
  | b : Bool → JsonV
  | s : String → JsonV
  | n : Int → JsonV
  | arr : List JsonV → JsonV
  | obj : List (String × JsonV) → JsonV

/-- Lookup in an insertion-ordered association list (Python `d[k]` / `k in d`). -/
def alist_get : List (String × JsonV) → String → Option JsonV
  | [], _ => none
  | (k, v) :: rest, key => if k = key then some v else alist_get rest key

/-- Python dictionary assignment `d[k] = v`: replace the existing entry in
place, otherwise append at the end. -/
def alist_set : List (String × JsonV) → String → JsonV → List (String × JsonV)
  | [], key, val => [(key, val)]
  | (k, v) :: rest, key, val =>
      if k = key then (k, val) :: rest else (k, v) :: alist_set rest key val

/-- Key lookup on a JSON value; `none` when the value is not an object or
the key is absent (Python raises `KeyError`/`TypeError` there). -/
def JsonV.getKey : JsonV → String → Option JsonV
  | .obj kvs, k => alist_get kvs k
  | _, _ => none

/-- Python `d.get(k, default)`: `none` models the `AttributeError` raised
when the receiver is not a dictionary. -/
def pyGetD (v : JsonV) (k : String) (d : JsonV) : Option JsonV :=
  match v with
  | JsonV.obj kvs => some ((alist_get kvs k).getD d)
  | _ => none

/-- Python truthiness of a JSON value. -/
def truthy : JsonV → Bool
  | .null => false
  | .b v => v
  | .s v => v ≠ ""
  | .n v => v ≠ 0
  | .arr xs => !xs.isEmpty
  | .obj kvs => !kvs.isEmpty

/-- Python truthiness of an `Optional[str]` (`if query_text:`). -/
def optStrTruthy : Option String → Bool
  | none => false
  | some q => q ≠ ""

/-! ## The advanced-search query builder (`advanced_search`, lines 241-321) -/

/-- Input of `advanced_search`: the SearchRequest options. -/
structure SearchRequest where
  query_text : Option String
  file_type : Option String
  min_size : Option Int
  max_size : Option Int
  sort_by : String
  sort_order : String
  size : Int

/-- The multi-match text clause appended to `query_parts`. -/
def mkTextClause (q : String) : JsonV :=
  JsonV.obj [("multi_match", JsonV.obj
    [("query", JsonV.s q),
     ("fields", JsonV.arr [JsonV.s "content", JsonV.s "file_name"]),
     ("type", JsonV.s "best_fields"),
     ("fuzziness", JsonV.s "AUTO")])]

/-- `query_parts` after the `if query_text:` block (truthiness test). -/
def queryParts (query_text : Option String) : List JsonV :=
  match query_text with
  | some q => if q ≠ "" then [mkTextClause q] else []
  | none => []

/-- The `size_filter` dictionary built by the two `is not None` checks,
`gte` inserted before `lte`. -/
def sizeFilter (min_size max_size : Option Int) : List (String × JsonV) :=
  (match min_size with | some m => [("gte", JsonV.n m)] | none => [])
    ++ (match max_size with | some m => [("lte", JsonV.n m)] | none => [])

/-- The `filters` list: an optional term clause on `file_type` followed by
an optional range clause on `file_size` (emitted only if `size_filter` is
truthy, i.e. non-empty). -/
def buildFilters (req : SearchRequest) : List JsonV :=
  (match req.file_type with
   | some t =>
       if t ≠ "" then [JsonV.obj [("term", JsonV.obj [("file_type", JsonV.s t)])]] else []
   | none => [])
    ++ (let sf := sizeFilter req.min_size req.max_size
        if sf.isEmpty then []
        else [JsonV.obj [("range", JsonV.obj [("file_size", JsonV.obj sf)])]])

/-- Sort-field resolution (lines 306-313). -/
def resolveSortField (sort_by : String) : String :=
  if sort_by = "score" then "_score"
  else if sort_by = "file_name" then "file_name.keyword"
  else sort_by

/-- The highlight request attached when `query_text` is truthy. -/
def highlightRequest : JsonV :=
  JsonV.obj [("fields", JsonV.obj [("content", JsonV.obj [])])]

/-- The complete request body built by `advanced_search` (lines 247-317):
`query`, optional `highlight`, `sort`, `size` in insertion order. -/
def buildAdvancedQuery (req : SearchRequest) : JsonV :=
  let qp := queryParts req.query_text
  let fs := buildFilters req
  let qv : JsonV :=
    if !qp.isEmpty && !fs.isEmpty then
      JsonV.obj [("bool", JsonV.obj [("must", JsonV.arr qp), ("filter", JsonV.arr fs)])]
    else if !qp.isEmpty then
      JsonV.obj [("bool", JsonV.obj [("must", JsonV.arr qp)])]
    else if !fs.isEmpty then
      JsonV.obj [("bool", JsonV.obj [("filter", JsonV.arr fs)])]
    else
      JsonV.obj [("match_all", JsonV.obj [])]
  JsonV.obj
    ([("query", qv)]
      ++ (if optStrTruthy req.query_text then [("highlight", highlightRequest)] else [])
      ++ [("sort", JsonV.arr
            [JsonV.obj [(resolveSortField req.sort_by,
                         JsonV.obj [("order", JsonV.s req.sort_order)])]])]
      ++ [("size", JsonV.n req.size)])

/-- The request body built by `search_documents` (lines 172-187). -/
def buildSearchQuery (query_text : String) (size : Int) : JsonV :=
  JsonV.obj
    [("query", JsonV.obj [("multi_match", JsonV.obj
        [("query", JsonV.s query_text),
         ("fields", JsonV.arr [JsonV.s "content", JsonV.s "file_name"]),
         ("type", JsonV.s "best_fields"),
         ("fuzziness", JsonV.s "AUTO")])]),
     ("highlight", highlightRequest),
     ("size", JsonV.n size)]

/-! ## Result normalizers -/

/-- Per-hit normalizer of `advanced_search` (lines 326-336): copy `_source`,
set `score` from `_score` verbatim, and set `highlights` only when the
looked-up snippet value is truthy. `none` models an exception on an
ill-shaped hit (caught by the surrounding handler). -/
def processHitAdv (hit : JsonV) : Option JsonV := do
  let src ← hit.getKey "_source"
  let score ← hit.getKey "_score"
  let h ← pyGetD hit "highlight" (JsonV.obj [])
  let highlights ← pyGetD h "content" (JsonV.arr [])
  match src with
  | JsonV.obj srcKvs =>
      let doc := alist_set srcKvs "score" score
      some (JsonV.obj (if truthy highlights then alist_set doc "highlights" highlights else doc))
  | _ => none

/-- Per-hit normalizer of `search_documents` (lines 196-205): identical
except that `highlights` is always assigned, with no truthiness guard. -/
def processHitSearch (hit : JsonV) : Option JsonV := do
  let src ← hit.getKey "_source"
  let score ← hit.getKey "_score"
  let h ← pyGetD hit "highlight" (JsonV.obj [])
  let highlights ← pyGetD h "content" (JsonV.arr [])
  match src with
  | JsonV.obj srcKvs =>
      some (JsonV.obj (alist_set (alist_set srcKvs "score" score) "highlights" highlights))
  | _ => none

/-- The `for hit in hits` loop: results appended in hit order; a `none`
from the per-hit normalizer (an exception) aborts the whole loop. -/
def processHits (f : JsonV → Option JsonV) : List JsonV → Option (List JsonV)
  | [] => some []
  | hit :: rest => do
      let d ← f hit
      let ds ← processHits f rest
      some (d :: ds)

/-- `response.get('hits', {}).get('hits', [])` followed by iteration, which
requires a list. -/
def respHits (resp : JsonV) : Option (List JsonV) := do
  let h ← pyGetD resp "hits" (JsonV.obj [])
  let hh ← pyGetD h "hits" (JsonV.arr [])
  match hh with
  | JsonV.arr xs => some xs
  | _ => none

/-! ## Execution model

The engine client is modelled by two effects: the index-existence check
and the search round-trip, the latter returning either a response body or
a raised exception (`Except.error`). Log events record the `logger`
calls relevant to the claims. -/

/-- The engine client handle (`es`). -/
structure Engine where
  indexExists : String → Bool
  search : String → JsonV → Except String JsonV

/-- Log events emitted by the query layer. -/
inductive LogEvent where
  | warnIndexMissing
  | errorSearch
  | infoOk
deriving DecidableEq

/-- Body of the `try:` block of `advanced_search` (lines 242-339): an
`Except.error` is an exception escaping the block. -/
def advanced_search_body (eng : Engine) (index_name : String) (req : SearchRequest) :
    Except String (List JsonV × List LogEvent) :=
  if !eng.indexExists index_name then Except.ok ([], [LogEvent.warnIndexMissing])
  else
    match eng.search index_name (buildAdvancedQuery req) with
    | Except.error e => Except.error e
    | Except.ok resp =>
        match respHits resp with
        | none => Except.error "response shape"
        | some hits =>
            match processHits processHitAdv hits with
            | none => Except.error "hit shape"
            | some results => Except.ok (results, [LogEvent.infoOk])

/-- `advanced_search` (lines 213-342): the `except Exception` handler
(lines 340-342) turns any exception into a logged error and `[]`. -/
def advanced_search (eng : Engine) (index_name : String) (req : SearchRequest) :
    List JsonV × List LogEvent :=
  match advanced_search_body eng index_name req with
  | Except.ok r => r
  | Except.error _ => ([], [LogEvent.errorSearch])

/-- Body of the `try:` block of `search_documents` (lines 165-208). -/
def search_documents_body (eng : Engine) (index_name query_text : String) (size : Int) :
    Except String (List JsonV × List LogEvent) :=
  if !eng.indexExists index_name then Except.ok ([], [LogEvent.warnIndexMissing])
  else
    match eng.search index_name (buildSearchQuery query_text size) with
    | Except.error e => Except.error e
    | Except.ok resp =>
        match respHits resp with
        | none => Except.error "response shape"
        | some hits =>
            match processHits processHitSearch hits with
            | none => Except.error "hit shape"
            | some results => Except.ok (results, [LogEvent.infoOk])

/-- `search_documents` (lines 147-211) with its catch-all handler
(lines 209-211). -/
def search_documents (eng : Engine) (index_name query_text : String) (size : Int) :
    List JsonV × List LogEvent :=
  match search_documents_body eng index_name query_text size with
  | Except.ok r => r
  | Except.error _ => ([], [LogEvent.errorSearch])

/-! ## Ingestion (`index_documents`, lines 95-145, and the Spark writer) -/

/-- Engine operations performed by the ingestion path. -/
inductive EsOp where
  | ensureIndex (name : String)
  | bulkWrite (actions : List JsonV)

/-- Outcome of the `bulk` helper: success count and list of failed items. -/
structure BulkOutcome where
  success : Nat
  failed : List JsonV

/-- The bulk `actions` built at lines 116-122: each item holds only
`_index` and `_source`. -/
def makeActions (index_name : String) (documents : List JsonV) : List JsonV :=
  documents.map (fun doc =>
    JsonV.obj [("_index", JsonV.s index_name), ("_source", doc)])

/-- Failed-item post-processing (lines 132-139): take `_source` when
present, else `document`, else drop the item. -/
def extractFailedDoc (item : JsonV) : Option JsonV :=
  match item.getKey "_source" with
  | some v => some v
  | none => item.getKey "document"

/-- `index_documents` (lines 95-145): returns the (success count, failed
docs) pair together with the list of engine operations performed. -/
def index_documents (index_name : String) (documents : List JsonV)
    (bulkRun : List JsonV → Except String BulkOutcome) :
    (Nat × List JsonV) × List EsOp :=
  if documents.isEmpty then ((0, []), [])
  else
    let actions := makeActions index_name documents
    let ops := [EsOp.ensureIndex index_name, EsOp.bulkWrite actions]
    match bulkRun actions with
    | Except.error _ => ((0, documents), ops)
    | Except.ok out => ((out.success, out.failed.filterMap extractFailedDoc), ops)

/-- Writer options set by `write_dataframe_to_elasticsearch`
(`src/spark_utils.py`, lines 128-138), in `.option(...)` order. -/
def esWriteOptions (es_host : String) (es_port : Int) (es_index : String) :
    List (String × JsonV) :=
  [("es.nodes", JsonV.s es_host),
   ("es.port", JsonV.n es_port),
   ("es.resource", JsonV.s es_index),
   ("es.mapping.id", JsonV.s "file_path"),
   ("es.nodes.wan.only", JsonV.s "true"),
   ("es.net.http.auth.user", JsonV.s ""),
   ("es.net.http.auth.pass", JsonV.s "")]

/-- Body (under `range` / `file_size`) of a range clause, `none` for any
other clause shape. -/
def rangeBody (c : JsonV) : Option JsonV :=
  (c.getKey "range").bind (fun r => r.getKey "file_size")

/-- The range-clause bodies occurring in the `filters` list built by
`advanced_search`. -/
def rangeParts (req : SearchRequest) : List JsonV :=
  (buildFilters req).filterMap rangeBody

/-! ## Helper lemmas on association lists and the hit loop -/

theorem alist_get_set_self (l : List (String × JsonV)) (k : String) (v : JsonV) :
    alist_get (alist_set l k v) k = some v := by
  induction l with
  | nil => simp [alist_set, alist_get]
  | cons hd tl ih =>
      obtain ⟨k', v'⟩ := hd
      by_cases h : k' = k <;> simp [alist_set, alist_get, h, ih]

theorem alist_get_set_ne (l : List (String × JsonV)) (k k' : String) (v : JsonV)
    (h : k' ≠ k) : alist_get (alist_set l k v) k' = alist_get l k' := by
  have h' : ¬ k = k' := fun hh => h hh.symm
  induction l with
  | nil => simp [alist_set, alist_get, h']
  | cons hd tl ih =>
      obtain ⟨k'', v''⟩ := hd
      by_cases hk : k'' = k
      · subst hk
        simp [alist_set, alist_get, h']
      · simp [alist_set, alist_get, hk, ih]

theorem processHits_spec (f : JsonV → Option JsonV) :
    ∀ (hits rs : List JsonV), processHits f hits = some rs →
      rs.length = hits.length ∧
      ∀ i (h1 : i < hits.length) (h2 : i < rs.length),
        f (hits.get ⟨i, h1⟩) = some (rs.get ⟨i, h2⟩) := by
  intro hits
  induction hits with
  | nil =>
      intro rs h
      simp [processHits] at h
      subst h
      simp
  | cons hit rest ih =>
      intro rs h
      cases hf : f hit with
      | none => simp [processHits, hf] at h
      | some d =>
          cases hr : processHits f rest with
          | none => simp [processHits, hf, hr] at h
          | some ds =>
              simp [processHits, hf, hr] at h
              subst h
              obtain ⟨hlen, hidx⟩ := ih ds hr
              refine ⟨by simp [hlen], ?_⟩
              intro i h1 h2
              cases i with
              | zero => simpa using hf
              | succ j =>
                  simpa using hidx j (by simpa using h1) (by simpa using h2)

/-! ## Claims -/

/-- C9: for the empty input list, `index_documents` returns exactly
`(0, [])` and performs no engine operation at all — it neither checks nor
creates the index and issues no bulk write. -/
theorem c9_empty_ingest_no_ops (index_name : String)
    (bulkRun : List JsonV → Except String BulkOutcome) :
    index_documents index_name [] bulkRun = ((0, []), []) := rfl

/-- C4: for every query (both `search_documents` and `advanced_search`),
if the target index does not exist the function returns the empty result
list and logs a warning; the body of the `try:` block already returns
normally there, so no exception reaches the caller. -/
theorem c4_missing_index (eng : Engine) (index_name : String)
    (req : SearchRequest) (query_text : String) (size : Int)
    (h : eng.indexExists index_name = false) :
    advanced_search eng index_name req = ([], [LogEvent.warnIndexMissing])
    ∧ advanced_search_body eng index_name req =
        Except.ok ([], [LogEvent.warnIndexMissing])
    ∧ search_documents eng index_name query_text size =
        ([], [LogEvent.warnIndexMissing])
    ∧ search_documents_body eng index_name query_text size =
        Except.ok ([], [LogEvent.warnIndexMissing]) := by
  refine ⟨?_, ?_, ?_, ?_⟩ <;>
    simp [advanced_search, advanced_search_body, search_documents,
      search_documents_body, h]

/-- Witness for C4 at a concrete engine whose index-existence check is
false: `advanced_search` yields `([], warning)`. -/
theorem c4_missing_index_witness :
    advanced_search ⟨fun _ => false, fun _ _ => Except.ok (JsonV.obj [])⟩
        "documents" ⟨none, none, none, none, "score", "desc", 10⟩ =
      ([], [LogEvent.warnIndexMissing]) :=
  (c4_missing_index _ "documents" _ "q" 10 rfl).1

/-- C7 counterexample: with an engine whose search round-trip raises a
connectivity error (`Except.error`), the `try:` body of `advanced_search`
does propagate the exception, but the installed catch-all handler absorbs
it and both functions return the empty result list with a logged error —
the error is NOT raised upward to the caller, contrary to the claim. -/
theorem c7_counterexample :
    advanced_search_body
        ⟨fun _ => true, fun _ _ => Except.error "connection refused"⟩
        "documents" ⟨none, none, none, none, "score", "desc", 10⟩ =
      Except.error "connection refused"
    ∧ advanced_search
        ⟨fun _ => true, fun _ _ => Except.error "connection refused"⟩
        "documents" ⟨none, none, none, none, "score", "desc", 10⟩ =
      ([], [LogEvent.errorSearch])
    ∧ search_documents
        ⟨fun _ => true, fun _ _ => Except.error "connection refused"⟩
        "documents" "report" 10 =
      ([], [LogEvent.errorSearch]) :=
  ⟨rfl, rfl, rfl⟩

/-- C7 amended: every exception of the engine round-trip (connectivity or
protocol) is caught by the `except Exception` handler and absorbed into an
empty result list with a logged error; only the missing-index and zero-hit
conditions produce an empty list without an error log. Nothing is raised
upward by `search_documents` or `advanced_search`. -/
theorem c7_amended_absorbs_errors (eng : Engine) (index_name : String)
    (req : SearchRequest) (query_text : String) (size : Int) (e1 e2 : String)
    (hex : eng.indexExists index_name = true)
    (h1 : eng.search index_name (buildAdvancedQuery req) = Except.error e1)
    (h2 : eng.search index_name (buildSearchQuery query_text size) =
      Except.error e2) :
    advanced_search eng index_name req = ([], [LogEvent.errorSearch])
    ∧ search_documents eng index_name query_text size =
        ([], [LogEvent.errorSearch]) := by
  constructor <;>
    simp [advanced_search, advanced_search_body, search_documents,
      search_documents_body, hex, h1, h2]

/-- Witness for the amended C7 at a concrete failing engine. -/
theorem c7_amended_witness :
    advanced_search ⟨fun _ => true, fun _ _ => Except.error "boom"⟩
        "documents" ⟨none, none, none, none, "score", "desc", 10⟩ =
      ([], [LogEvent.errorSearch]) :=
  (c7_amended_absorbs_errors _ "documents" _ "report" 10 "boom" "boom"
    rfl rfl rfl).1

/-- C8 counterexample: the bulk action built by `index_documents` for a
document with `file_path = "/tmp/a.txt"` carries only `_index` and
`_source`, and in particular no `_id` destination-identity key — the
engine therefore auto-generates an id and re-ingestion duplicates rather
than overwrites. -/
theorem c8_counterexample :
    makeActions "documents"
        [JsonV.obj [("file_path", JsonV.s "/tmp/a.txt"),
                    ("file_name", JsonV.s "a.txt")]] =
      [JsonV.obj [("_index", JsonV.s "documents"),
        ("_source", JsonV.obj [("file_path", JsonV.s "/tmp/a.txt"),
                               ("file_name", JsonV.s "a.txt")])]]
    ∧ (JsonV.obj [("_index", JsonV.s "documents"),
        ("_source", JsonV.obj [("file_path", JsonV.s "/tmp/a.txt"),
                               ("file_name", JsonV.s "a.txt")])]).getKey "_id"
      = none :=
  ⟨rfl, rfl⟩

/-- C8 amended: only the Spark writer path maps document identity to
`file_path` (its `es.mapping.id` option), giving upsert-by-identity there;
the `index_documents` bulk path emits actions without any `_id` key, so
that path has no identity-mapped indexing. -/
theorem c8_amended_identity (name : String) (docs : List JsonV) (a : JsonV)
    (es_host : String) (es_port : Int) (es_index : String)
    (ha : a ∈ makeActions name docs) :
    a.getKey "_id" = none
    ∧ alist_get (esWriteOptions es_host es_port es_index) "es.mapping.id" =
        some (JsonV.s "file_path") := by
  constructor
  · obtain ⟨doc, _, hdoc⟩ := List.mem_map.mp ha
    subst hdoc
    simp [JsonV.getKey, alist_get]
  · simp [esWriteOptions, alist_get]

/-- Witness for the amended C8 at a concrete document. -/
theorem c8_amended_witness :
    (JsonV.obj [("_index", JsonV.s "documents"),
      ("_source", JsonV.obj [("file_path", JsonV.s "/tmp/a.txt")])]).getKey
        "_id" = none :=
  (c8_amended_identity "documents"
    [JsonV.obj [("file_path", JsonV.s "/tmp/a.txt")]]
    (JsonV.obj [("_index", JsonV.s "documents"),
      ("_source", JsonV.obj [("file_path", JsonV.s "/tmp/a.txt")])])
    "localhost" 9200 "documents"
    (List.mem_singleton_self _)).1

/-- C1: `advanced_search` composes the request body by the four-case
boolean rule. "query_text present" is the code's truthiness test, i.e. a
non-empty string (see C10): with a text clause and at least one filter the
`query` entry is a bool query holding the text clause alone under `must`
and the filter clauses under `filter`; with only a text clause, only
`must`; with only filters, only `filter`; with neither, `match_all`. -/
theorem c1_bool_composition (req : SearchRequest) :
    (∀ q c cs, req.query_text = some q → q ≠ "" → buildFilters req = c :: cs →
      (buildAdvancedQuery req).getKey "query" =
        some (JsonV.obj [("bool", JsonV.obj
          [("must", JsonV.arr [mkTextClause q]),
           ("filter", JsonV.arr (c :: cs))])]))
    ∧ (∀ q, req.query_text = some q → q ≠ "" → buildFilters req = [] →
      (buildAdvancedQuery req).getKey "query" =
        some (JsonV.obj [("bool", JsonV.obj
          [("must", JsonV.arr [mkTextClause q])])]))
    ∧ (∀ c cs, optStrTruthy req.query_text = false → buildFilters req = c :: cs →
      (buildAdvancedQuery req).getKey "query" =
        some (JsonV.obj [("bool", JsonV.obj
          [("filter", JsonV.arr (c :: cs))])]))
    ∧ (optStrTruthy req.query_text = false → buildFilters req = [] →
      (buildAdvancedQuery req).getKey "query" =
        some (JsonV.obj [("match_all", JsonV.obj [])])) := by
  refine ⟨?_, ?_, ?_, ?_⟩
  · intro q c cs hq hne hf
    simp [buildAdvancedQuery, queryParts, optStrTruthy, hq, hne, hf,
      JsonV.getKey, alist_get]
  · intro q hq hne hf
    simp [buildAdvancedQuery, queryParts, optStrTruthy, hq, hne, hf,
      JsonV.getKey, alist_get]
  · intro c cs ht hf
    have hqp : queryParts req.query_text = [] := by
      cases hq : req.query_text with
      | none => simp [queryParts]
      | some q =>
          rw [hq] at ht
          simp [optStrTruthy] at ht
          simp [queryParts, ht]
    simp [buildAdvancedQuery, hqp, ht, hf, JsonV.getKey, alist_get]
  · intro ht hf
    have hqp : queryParts req.query_text = [] := by
      cases hq : req.query_text with
      | none => simp [queryParts]
      | some q =>
          rw [hq] at ht
          simp [optStrTruthy] at ht
          simp [queryParts, ht]
    simp [buildAdvancedQuery, hqp, ht, hf, JsonV.getKey, alist_get]

/-- Witness for C1, first case, at a concrete request with both a text
query and a file-type filter. -/
theorem c1_bool_composition_witness :
    (buildAdvancedQuery
        ⟨some "report", some "pdf", none, none, "score", "desc", 10⟩).getKey
        "query" =
      some (JsonV.obj [("bool", JsonV.obj
        [("must", JsonV.arr [mkTextClause "report"]),
         ("filter", JsonV.arr
           [JsonV.obj [("term", JsonV.obj [("file_type", JsonV.s "pdf")])]])])]) :=
  (c1_bool_composition _).1 "report"
    (JsonV.obj [("term", JsonV.obj [("file_type", JsonV.s "pdf")])]) []
    rfl (by simp) rfl

/-- C3: `advanced_search` resolves the sort field as `sort_by="score"` ↦
the engine-internal `"_score"`, `sort_by="file_name"` ↦ the exact-match
sibling `"file_name.keyword"` (not the raw tokenized `"file_name"`), and
`sort_by="file_size"` ↦ `"file_size"`; the built request's `sort` entry
pairs that field with the given `sort_order`. -/
theorem c3_sort_field (req : SearchRequest) :
    (req.sort_by = "score" →
      (buildAdvancedQuery req).getKey "sort" =
        some (JsonV.arr [JsonV.obj [("_score",
          JsonV.obj [("order", JsonV.s req.sort_order)])]]))
    ∧ (req.sort_by = "file_name" →
      (buildAdvancedQuery req).getKey "sort" =
        some (JsonV.arr [JsonV.obj [("file_name.keyword",
          JsonV.obj [("order", JsonV.s req.sort_order)])]]))
    ∧ (req.sort_by = "file_size" →
      (buildAdvancedQuery req).getKey "sort" =
        some (JsonV.arr [JsonV.obj [("file_size",
          JsonV.obj [("order", JsonV.s req.sort_order)])]])) := by
  refine ⟨?_, ?_, ?_⟩ <;> intro hs <;>
    cases hq : optStrTruthy req.query_text <;>
      simp [buildAdvancedQuery, hq, hs, resolveSortField,
        JsonV.getKey, alist_get]

/-- Witness for C3 at a concrete request sorting by `file_name`. -/
theorem c3_sort_field_witness :
    (buildAdvancedQuery
        ⟨none, none, none, none, "file_name", "asc", 10⟩).getKey "sort" =
      some (JsonV.arr [JsonV.obj [("file_name.keyword",
        JsonV.obj [("order", JsonV.s "asc")])]]) :=
  (c3_sort_field _).2.1 rfl

/-- C10: `advanced_search` treats `query_text=""` identically to
`query_text=None` (the presence test is Python truthiness): the built
body for `""` equals the one for `None` with all other arguments fixed,
no highlight request is attached, and with no filters the `query` entry
is the match-everything clause. -/
theorem c10_empty_query_text (ft : Option String) (ms xs : Option Int)
    (sb so : String) (sz : Int) :
    buildAdvancedQuery ⟨some "", ft, ms, xs, sb, so, sz⟩ =
      buildAdvancedQuery ⟨none, ft, ms, xs, sb, so, sz⟩
    ∧ (buildAdvancedQuery ⟨some "", ft, ms, xs, sb, so, sz⟩).getKey
        "highlight" = none
    ∧ (buildAdvancedQuery ⟨some "", none, none, none, sb, so, sz⟩).getKey
        "query" = some (JsonV.obj [("match_all", JsonV.obj [])]) := by
  refine ⟨rfl, ?_, ?_⟩
  · simp [buildAdvancedQuery, queryParts, optStrTruthy, JsonV.getKey,
      alist_get]
  · simp [buildAdvancedQuery, queryParts, buildFilters, sizeFilter,
      optStrTruthy, JsonV.getKey, alist_get]

/-- C2: `advanced_search` emits a range filter clause on `file_size` iff
at least one of `min_size`, `max_size` is not None; the clause carries
`gte = min_size` exactly when `min_size` is present and `lte = max_size`
exactly when `max_size` is present, and no other bound key. In
particular, with only `min_size = 1000` the range body is exactly
`{"gte": 1000}`. -/
theorem c2_range_filter :
    (∀ req : SearchRequest,
      rangeParts req =
        match req.min_size, req.max_size with
        | none, none => []
        | some a, none => [JsonV.obj [("gte", JsonV.n a)]]
        | none, some c => [JsonV.obj [("lte", JsonV.n c)]]
        | some a, some c =>
            [JsonV.obj [("gte", JsonV.n a), ("lte", JsonV.n c)]])
    ∧ rangeParts ⟨none, none, some 1000, none, "score", "desc", 10⟩ =
        [JsonV.obj [("gte", JsonV.n 1000)]] := by
  refine ⟨?_, rfl⟩
  intro req
  cases ht : req.file_type with
  | none =>
      cases hm : req.min_size <;> cases hx : req.max_size <;>
        simp [rangeParts, buildFilters, sizeFilter, ht, hm, hx,
          rangeBody, JsonV.getKey, alist_get]
  | some t =>
      by_cases he : t = "" <;>
        cases hm : req.min_size <;> cases hx : req.max_size <;>
          simp [rangeParts, buildFilters, sizeFilter, ht, hm, hx, he,
            rangeBody, JsonV.getKey, alist_get]

/-- C5: the normalizers copy the hit's `_score` verbatim into the
result's `score` field (null stays null, never coerced to 0), and the
output list preserves exactly the order of the engine's hits: the i-th
result comes from the i-th hit, with no re-sorting. -/
theorem c5_score_verbatim_and_order :
    (∀ hit doc, processHitAdv hit = some doc →
        doc.getKey "score" = hit.getKey "_score")
    ∧ (∀ hit doc, processHitSearch hit = some doc →
        doc.getKey "score" = hit.getKey "_score")
    ∧ (∀ hits rs, processHits processHitAdv hits = some rs →
        rs.length = hits.length ∧
        ∀ i (h1 : i < hits.length) (h2 : i < rs.length),
          processHitAdv (hits.get ⟨i, h1⟩) = some (rs.get ⟨i, h2⟩)) := by
  refine ⟨?_, ?_, processHits_spec processHitAdv⟩
  · intro hit doc h
    cases hsrc : hit.getKey "_source" with
    | none => simp [processHitAdv, hsrc] at h
    | some src =>
        cases hsc : hit.getKey "_score" with
        | none => simp [processHitAdv, hsrc, hsc] at h
        | some score =>
            cases hh : pyGetD hit "highlight" (JsonV.obj []) with
            | none => simp [processHitAdv, hsrc, hsc, hh] at h
            | some hv =>
                cases hc : pyGetD hv "content" (JsonV.arr []) with
                | none => simp [processHitAdv, hsrc, hsc, hh, hc] at h
                | some hl =>
                    cases src with
                    | obj srcKvs =>
                        simp [processHitAdv, hsrc, hsc, hh, hc] at h
                        subst h
                        by_cases htr : truthy hl
                        · simp [htr, JsonV.getKey]
                          rw [alist_get_set_ne _ _ _ _ (by decide)]
                          exact alist_get_set_self _ _ _
                        · simp [htr, JsonV.getKey]
                          exact alist_get_set_self _ _ _
                    | null => simp [processHitAdv, hsrc, hsc, hh, hc] at h
                    | b v => simp [processHitAdv, hsrc, hsc, hh, hc] at h
                    | s v => simp [processHitAdv, hsrc, hsc, hh, hc] at h
                    | n v => simp [processHitAdv, hsrc, hsc, hh, hc] at h
                    | arr xs => simp [processHitAdv, hsrc, hsc, hh, hc] at h
  · intro hit doc h
    cases hsrc : hit.getKey "_source" with
    | none => simp [processHitSearch, hsrc] at h
    | some src =>
        cases hsc : hit.getKey "_score" with
        | none => simp [processHitSearch, hsrc, hsc] at h
        | some score =>
            cases hh : pyGetD hit "highlight" (JsonV.obj []) with
            | none => simp [processHitSearch, hsrc, hsc, hh] at h
            | some hv =>
                cases hc : pyGetD hv "content" (JsonV.arr []) with
                | none => simp [processHitSearch, hsrc, hsc, hh, hc] at h
                | some hl =>
                    cases src with
                    | obj srcKvs =>
                        simp [processHitSearch, hsrc, hsc, hh, hc] at h
                        subst h
                        simp [JsonV.getKey]
                        rw [alist_get_set_ne _ _ _ _ (by decide)]
                        exact alist_get_set_self _ _ _
                    | null => simp [processHitSearch, hsrc, hsc, hh, hc] at h
                    | b v => simp [processHitSearch, hsrc, hsc, hh, hc] at h
                    | s v => simp [processHitSearch, hsrc, hsc, hh, hc] at h
                    | n v => simp [processHitSearch, hsrc, hsc, hh, hc] at h
                    | arr xs => simp [processHitSearch, hsrc, hsc, hh, hc] at h

/-- Witness for C5 at a concrete hit whose `_score` is null: the
normalized result's `score` is null. -/
theorem c5_witness :
    (JsonV.obj [("file_name", JsonV.s "a"),
      ("score", JsonV.null)]).getKey "score" = some JsonV.null :=
  (c5_score_verbatim_and_order.1
    (JsonV.obj [("_source", JsonV.obj [("file_name", JsonV.s "a")]),
      ("_score", JsonV.null)])
    (JsonV.obj [("file_name", JsonV.s "a"), ("score", JsonV.null)])
    rfl).trans rfl

/-- C6 counterexample: in `search_documents` a raw hit with no
`highlight` key still produces a result WITH a `highlights` field, set to
the empty list — the claim that the key is absent fails on this path. -/
theorem c6_counterexample :
    processHitSearch (JsonV.obj
        [("_source", JsonV.obj [("file_name", JsonV.s "a")]),
         ("_score", JsonV.n 1)]) =
      some (JsonV.obj [("file_name", JsonV.s "a"), ("score", JsonV.n 1),
        ("highlights", JsonV.arr [])])
    ∧ (JsonV.obj [("file_name", JsonV.s "a"), ("score", JsonV.n 1),
        ("highlights", JsonV.arr [])]).getKey "highlights" ≠ none := by
  refine ⟨rfl, ?_⟩
  simp [JsonV.getKey, alist_get]

/-- C6 amended: the `advanced_search` normalizer copies the snippet list
when the hit carries `highlight.content` with content and omits the
`highlights` key when the hit has no `highlight` key (and the source
carries none); the `search_documents` normalizer instead always assigns
`highlights`, setting it to the empty list when the hit has no
`highlight` key. -/
theorem c6_highlights_amended (hit doc : JsonV)
    (srcKvs : List (String × JsonV)) (x : JsonV) (l : List JsonV) :
    (processHitAdv hit = some doc →
     hit.getKey "highlight" = none →
     hit.getKey "_source" = some (JsonV.obj srcKvs) →
     alist_get srcKvs "highlights" = none →
     doc.getKey "highlights" = none)
    ∧ (processHitAdv hit = some doc →
       hit.getKey "highlight" = some (JsonV.obj [("content", JsonV.arr (x :: l))]) →
       doc.getKey "highlights" = some (JsonV.arr (x :: l)))
    ∧ (processHitSearch hit = some doc →
       hit.getKey "highlight" = none →
       doc.getKey "highlights" = some (JsonV.arr []))
    ∧ (processHitSearch hit = some doc →
       hit.getKey "highlight" = some (JsonV.obj [("content", JsonV.arr l)]) →
       doc.getKey "highlights" = some (JsonV.arr l)) := by
  refine ⟨?_, ?_, ?_, ?_⟩
  · intro h hno hsrc hpre
    cases hit with
    | obj kvs =>
        simp [JsonV.getKey] at hsrc hno
        cases hsc : alist_get kvs "_score" with
        | none => simp [processHitAdv, JsonV.getKey, hsrc, hsc] at h
        | some score =>
            simp [processHitAdv, JsonV.getKey, pyGetD, hsrc, hsc, hno,
              alist_get, truthy] at h
            subst h
            simp [JsonV.getKey]
            rw [alist_get_set_ne _ _ _ _ (by decide)]
            exact hpre
    | null => simp [processHitAdv, JsonV.getKey] at h
    | b v => simp [processHitAdv, JsonV.getKey] at h
    | s v => simp [processHitAdv, JsonV.getKey] at h
    | n v => simp [processHitAdv, JsonV.getKey] at h
    | arr xs => simp [processHitAdv, JsonV.getKey] at h
  · intro h hhl
    cases hit with
    | obj kvs =>
        simp [JsonV.getKey] at hhl
        cases hsrc : alist_get kvs "_source" with
        | none => simp [processHitAdv, JsonV.getKey, hsrc] at h
        | some src =>
            cases hsc : alist_get kvs "_score" with
            | none => simp [processHitAdv, JsonV.getKey, hsrc, hsc] at h
            | some score =>
                cases src with
                | obj srcKvs' =>
                    simp [processHitAdv, JsonV.getKey, pyGetD, hsrc, hsc, hhl,
                      alist_get, truthy] at h
                    subst h
                    simp [JsonV.getKey, alist_get_set_self]
                | null => simp [processHitAdv, JsonV.getKey, pyGetD, hsrc, hsc, hhl, alist_get] at h
                | b v => simp [processHitAdv, JsonV.getKey, pyGetD, hsrc, hsc, hhl, alist_get] at h
                | s v => simp [processHitAdv, JsonV.getKey, pyGetD, hsrc, hsc, hhl, alist_get] at h
                | n v => simp [processHitAdv, JsonV.getKey, pyGetD, hsrc, hsc, hhl, alist_get] at h
                | arr xs => simp [processHitAdv, JsonV.getKey, pyGetD, hsrc, hsc, hhl, alist_get] at h
    | null => simp [processHitAdv, JsonV.getKey] at h
    | b v => simp [processHitAdv, JsonV.getKey] at h
    | s v => simp [processHitAdv, JsonV.getKey] at h
    | n v => simp [processHitAdv, JsonV.getKey] at h
    | arr xs => simp [processHitAdv, JsonV.getKey] at h
  · intro h hno
    cases hit with
    | obj kvs =>
        simp [JsonV.getKey] at hno
        cases hsrc : alist_get kvs "_source" with
        | none => simp [processHitSearch, JsonV.getKey, hsrc] at h
        | some src =>
            cases hsc : alist_get kvs "_score" with
            | none => simp [processHitSearch, JsonV.getKey, hsrc, hsc] at h
            | some score =>
                cases src with
                | obj srcKvs' =>
                    simp [processHitSearch, JsonV.getKey, pyGetD, hsrc, hsc,
                      hno, alist_get] at h
                    subst h
                    simp [JsonV.getKey, alist_get_set_self]
                | null => simp [processHitSearch, JsonV.getKey, pyGetD, hsrc, hsc, hno, alist_get] at h
                | b v => simp [processHitSearch, JsonV.getKey, pyGetD, hsrc, hsc, hno, alist_get] at h
                | s v => simp [processHitSearch, JsonV.getKey, pyGetD, hsrc, hsc, hno, alist_get] at h
                | n v => simp [processHitSearch, JsonV.getKey, pyGetD, hsrc, hsc, hno, alist_get] at h
                | arr xs => simp [processHitSearch, JsonV.getKey, pyGetD, hsrc, hsc, hno, alist_get] at h
    | null => simp [processHitSearch, JsonV.getKey] at h
    | b v => simp [processHitSearch, JsonV.getKey] at h
    | s v => simp [processHitSearch, JsonV.getKey] at h
    | n v => simp [processHitSearch, JsonV.getKey] at h
    | arr xs => simp [processHitSearch, JsonV.getKey] at h
  · intro h hhl
    cases hit with
    | obj kvs =>
        simp [JsonV.getKey] at hhl
        cases hsrc : alist_get kvs "_source" with
        | none => simp [processHitSearch, JsonV.getKey, hsrc] at h
        | some src =>
            cases hsc : alist_get kvs "_score" with
            | none => simp [processHitSearch, JsonV.getKey, hsrc, hsc] at h
            | some score =>
                cases src with
                | obj srcKvs' =>
                    simp [processHitSearch, JsonV.getKey, pyGetD, hsrc, hsc,
                      hhl, alist_get] at h
                    subst h
                    simp [JsonV.getKey, alist_get_set_self]
                | null => simp [processHitSearch, JsonV.getKey, pyGetD, hsrc, hsc, hhl, alist_get] at h
                | b v => simp [processHitSearch, JsonV.getKey, pyGetD, hsrc, hsc, hhl, alist_get] at h
                | s v => simp [processHitSearch, JsonV.getKey, pyGetD, hsrc, hsc, hhl, alist_get] at h
                | n v => simp [processHitSearch, JsonV.getKey, pyGetD, hsrc, hsc, hhl, alist_get] at h
                | arr xs => simp [processHitSearch, JsonV.getKey, pyGetD, hsrc, hsc, hhl, alist_get] at h
    | null => simp [processHitSearch, JsonV.getKey] at h
    | b v => simp [processHitSearch, JsonV.getKey] at h
    | s v => simp [processHitSearch, JsonV.getKey] at h
    | n v => simp [processHitSearch, JsonV.getKey] at h
    | arr xs => simp [processHitSearch, JsonV.getKey] at h

/-- Witness for the amended C6 at a concrete hit with no `highlight`
key, normalized by `search_documents`. -/
theorem c6_highlights_amended_witness :
    (JsonV.obj [("file_name", JsonV.s "a"), ("score", JsonV.n 1),
      ("highlights", JsonV.arr [])]).getKey "highlights" =
      some (JsonV.arr []) :=
  (c6_highlights_amended
    (JsonV.obj [("_source", JsonV.obj [("file_name", JsonV.s "a")]),
      ("_score", JsonV.n 1)])
    (JsonV.obj [("file_name", JsonV.s "a"), ("score", JsonV.n 1),
      ("highlights", JsonV.arr [])])
    [] JsonV.null []).2.2.1 rfl rfl
